import Mathlib

/-!
Verification of the physics/image core of `src/app.py` (solar-spots-lab).

Shallow embedding conventions:
* Python floats are modelled as real numbers (`ℝ`).
* NumPy 1-d arrays are modelled as `List ℝ`; the 400×400 image grid as a
  function `Fin 400 → Fin 400 → ℝ` (row index `i`, column index `j`).
* The granulation noise `0.05 * np.random.randn(size, size)` drawn inside
  `create_solar_image` is modelled as an explicit noise parameter `g`.
* Fallible Python operations are modelled with `Except`: Python float
  division raises `ZeroDivisionError` on a zero divisor, and NumPy masked
  assignment `result[mask] = 0` raises `TypeError` on a 0-d scalar.
-/

namespace SolarSpotsLab

noncomputable section

/-- Constant `SUN_TEMPERATURE = 5778` from src/app.py line 126. -/
def SUN_TEMPERATURE : ℝ := 5778

/-- Constant `WIEN_CONSTANT = 2.898e-3` from src/app.py line 127. -/
def WIEN_CONSTANT : ℝ := 2.898e-3

/-- Local constant `h = 6.626e-34` of `SolarAnalyzer.planck_law` (line 135). -/
def planck_h : ℝ := 6.626e-34

/-- Local constant `c = 3.0e8` of `SolarAnalyzer.planck_law` (line 136). -/
def planck_c : ℝ := 3.0e8

/-- Local constant `k = 1.381e-23` of `SolarAnalyzer.planck_law` (line 137). -/
def planck_k : ℝ := 1.381e-23

/-- Per-element exponent `h * c / (wavelength * k * temperature)` computed by
`SolarAnalyzer.planck_law` (line 140). -/
def planck_exponent (wavelength temperature : ℝ) : ℝ :=
  planck_h * planck_c / (wavelength * planck_k * temperature)

/-- Per-element value of `SolarAnalyzer.planck_law` (lines 139-145): the raw
black-body radiance `(2hc²/λ⁵) · 1/(exp(exponent) − 1)`, with positions where
`exponent > 700` or `wavelength < 1e-10` set to 0 by the masked assignment
`result[mask] = 0`.  In the real-number semantics every intermediate value is
a defined real (division by zero yields 0), so no NaN arises and the final
line `result[np.isnan(result)] = 0` is the identity. -/
def planck_law (wavelength temperature : ℝ) : ℝ :=
  if 700 < planck_exponent wavelength temperature ∨ wavelength < 1e-10 then 0
  else (2 * planck_h * planck_c ^ 2 / wavelength ^ 5) *
    (1 / (Real.exp (planck_exponent wavelength temperature) - 1))

/-- Vectorised `SolarAnalyzer.planck_law` over an array of wavelengths at one
temperature, as called at lines 202 and 204. -/
def planck_law_vec (wavelengths : List ℝ) (temperature : ℝ) : List ℝ :=
  wavelengths.map fun w => planck_law w temperature

/-- A NumPy value as passed for `wavelength`: either a 0-d scalar or a 1-d
array. -/
inductive NpValue where
  | scalar (x : ℝ)
  | array (xs : List ℝ)

/-- Entry point of `SolarAnalyzer.planck_law` over a NumPy wavelength value.
When `wavelength` is a scalar, `result` at line 142 is a `numpy.float64`, and
the masked assignment `result[mask] = 0` at line 143 raises
`TypeError: 'numpy.float64' object does not support item assignment`; only
array inputs reach the return at line 145. -/
def planck_law_np : NpValue → ℝ → Except String NpValue
  | NpValue.scalar _, _ => Except.error "TypeError"
  | NpValue.array ws, temperature =>
      Except.ok (NpValue.array (planck_law_vec ws temperature))

/-- Function `SolarAnalyzer.calculate_spot_temperature` (lines 147-152):
returns 0 for `intensity_percent <= 0`, otherwise
`SUN_TEMPERATURE * (intensity_percent / 100) ** 0.25`. -/
def calculate_spot_temperature (intensity_percent : ℝ) : ℝ :=
  if intensity_percent ≤ 0 then 0
  else SUN_TEMPERATURE * (intensity_percent / 100) ^ (0.25 : ℝ)

/-- Wien peak-wavelength computation `(WIEN_CONSTANT / temperatureK) * 1e9`
from `main` (lines 526-527).  Python float division raises
`ZeroDivisionError` on a zero divisor, so the computation is modelled as
fallible; there is no guard in the source. -/
def wienPeakWavelength (temperatureK : ℝ) : Except String ℝ :=
  if temperatureK = 0 then Except.error "ZeroDivisionError"
  else Except.ok (WIEN_CONSTANT / temperatureK * 1e9)

/-- Model of `np.max` on a (nonempty) array; the `[]` case is arbitrary
(NumPy raises on an empty array, and the program only applies it to the
200-point spectrum). -/
def npMax : List ℝ → ℝ
  | [] => 0
  | x :: xs => xs.foldl max x

/-- Spectrum normalisation from `create_interactive_plots` (lines 202-205):
`spectrum /= np.max(spectrum) if np.max(spectrum) > 0 else 1`. -/
def normalize_spectrum (spectrum : List ℝ) : List ℝ :=
  spectrum.map fun v => v / (if 0 < npMax spectrum then npMax spectrum else 1)

/-! ### Disk image generator, `SolarAnalyzer.create_solar_image` (lines 154-193) -/

/-- Grid resolution `size = 400` (line 156). -/
def gridN : ℕ := 400

/-- Sample point `np.linspace(-1, 1, 400)[j] = -1 + 2*j/399` (line 157). -/
def coord (j : Fin gridN) : ℝ := -1 + 2 * (j : ℝ) / 399

/-- Radius `r = np.sqrt(x**2 + y**2)` at grid cell `(i, j)`; by the meshgrid
convention `x[i,j]` is `coord j` and `y[i,j]` is `coord i` (lines 157-158). -/
def rad (i j : Fin gridN) : ℝ := Real.sqrt (coord j ^ 2 + coord i ^ 2)

/-- State of the disk after lines 161-167: limb-darkened textured disk, cells
outside radius 1 zeroed, granulation `g` added to cells with `r ≤ 1`, then
`np.clip(solar_disk, 0, 1)`.  `g i j` stands for the random sample
`0.05 * np.random.randn(size, size)[i, j]`. -/
def clipped_disk (g : Fin gridN → Fin gridN → ℝ) (i j : Fin gridN) : ℝ :=
  min 1 (max 0 (if 1 < rad i j then 0
    else 1.0 - 0.6 * rad i j ^ 2 + 0.1 * Real.sin (10 * rad i j) + g i j))

/-- Centre `(spot_x, spot_y)` of spot `k` (lines 173-176):
`angle = 2π·k / max(1, num_spots)`,
`distance = 0.4 + 0.3·(k / max(1, num_spots-1))`. -/
def spot_pos (num_spots k : ℕ) : ℝ × ℝ :=
  ((0.4 + 0.3 * ((k : ℝ) / (max 1 (num_spots - 1) : ℕ))) *
      Real.cos (2 * Real.pi * (k : ℝ) / (max 1 num_spots : ℕ)),
   (0.4 + 0.3 * ((k : ℝ) / (max 1 (num_spots - 1) : ℕ))) *
      Real.sin (2 * Real.pi * (k : ℝ) / (max 1 num_spots : ℕ)))

/-- Distance `spot_r = np.sqrt((x - spot_x)**2 + (y - spot_y)**2)` from grid
cell `(i, j)` to the centre of spot `k` (line 178). -/
def spot_dist (num_spots k : ℕ) (i j : Fin gridN) : ℝ :=
  Real.sqrt ((coord j - (spot_pos num_spots k).1) ^ 2 +
    (coord i - (spot_pos num_spots k).2) ^ 2)

/-- Model of `np.interp(v, [x0, x1], [y0, y1])`: linear interpolation with
clamping outside the node range. -/
def np_interp (v x0 x1 y0 y1 : ℝ) : ℝ :=
  if v ≤ x0 then y0
  else if x1 ≤ v then y1
  else y0 + (v - x0) * (y1 - y0) / (x1 - x0)

/-- Multiplicative factor applied by spot `k` to cell `(i, j)`
(lines 180-191): `spot_intensity/100` on the umbra
(`spot_r < spot_radius` with `spot_radius = spot_size/120`), the interpolated
penumbra intensity on `spot_radius ≤ spot_r < 1.8·spot_radius`, and 1
elsewhere. -/
def spot_multiplier (num_spots : ℕ) (spot_intensity spot_size : ℝ) (k : ℕ)
    (i j : Fin gridN) : ℝ :=
  if spot_dist num_spots k i j < spot_size / 120 then spot_intensity / 100
  else if spot_dist num_spots k i j < spot_size / 120 * 1.8 then
    np_interp (spot_dist num_spots k i j) (spot_size / 120)
      (spot_size / 120 * 1.8) (spot_intensity / 100) 0.8
  else 1

/-- The `for i in range(num_spots)` loop of lines 172-191: after `n`
iterations each cell holds its pre-spot value multiplied by the factors of
spots `0 … n-1` (the umbra and penumbra masks of one spot are disjoint, so
each iteration is a single per-cell multiplication). -/
def spot_loop (num_spots : ℕ) (spot_intensity spot_size : ℝ)
    (disk : Fin gridN → Fin gridN → ℝ) : ℕ → Fin gridN → Fin gridN → ℝ
  | 0, i, j => disk i j
  | Nat.succ n, i, j =>
      spot_loop num_spots spot_intensity spot_size disk n i j *
        spot_multiplier num_spots spot_intensity spot_size n i j

/-- Function `SolarAnalyzer.create_solar_image` (lines 154-193), with the
granulation sample `g` made explicit. -/
def create_solar_image (num_spots : ℕ) (spot_intensity spot_size : ℝ)
    (g : Fin gridN → Fin gridN → ℝ) (i j : Fin gridN) : ℝ :=
  spot_loop num_spots spot_intensity spot_size (clipped_disk g) num_spots i j

/-! ### C1 -/

/-- C1: `calculate_spot_temperature` returns 0 for every
`intensityPercent ≤ 0`, a value strictly below 5778 for every
`0 < intensityPercent < 100`, and exactly 5778 at `intensityPercent = 100`. -/
theorem spot_temperature_contract (ip : ℝ) :
    (ip ≤ 0 → calculate_spot_temperature ip = 0) ∧
    (0 < ip → ip < 100 → calculate_spot_temperature ip < 5778) ∧
    calculate_spot_temperature 100 = 5778 := by
  refine ⟨fun h => ?_, fun h0 h100 => ?_, ?_⟩
  · simp [calculate_spot_temperature, h]
  · rw [calculate_spot_temperature, if_neg (not_le.mpr h0)]
    have h1 : ip / 100 < 1 := (div_lt_one (by norm_num : (0:ℝ) < 100)).mpr h100
    have h2 : (0:ℝ) ≤ ip / 100 := div_nonneg h0.le (by norm_num)
    have h3 : (ip / 100) ^ (0.25 : ℝ) < 1 :=
      Real.rpow_lt_one h2 h1 (by norm_num)
    have h4 : SUN_TEMPERATURE * ((ip / 100) ^ (0.25 : ℝ)) <
        SUN_TEMPERATURE * 1 := by
      have : (0:ℝ) < SUN_TEMPERATURE := by rw [SUN_TEMPERATURE]; norm_num
      exact mul_lt_mul_of_pos_left h3 this
    rw [SUN_TEMPERATURE] at h4 ⊢
    linarith
  · rw [calculate_spot_temperature, if_neg (by norm_num : ¬ (100:ℝ) ≤ 0)]
    rw [show ((100:ℝ) / 100) = 1 by norm_num, Real.one_rpow, SUN_TEMPERATURE]
    norm_num

/-- Witness for C1 at the concrete inputs `-5` and `35`. -/
theorem spot_temperature_contract_witness :
    calculate_spot_temperature (-5) = 0 ∧ calculate_spot_temperature 35 < 5778 :=
  ⟨(spot_temperature_contract (-5)).1 (by norm_num),
   (spot_temperature_contract 35).2.1 (by norm_num) (by norm_num)⟩

/-! ### C2 -/

/-- Helper: the spot temperature is strictly positive on positive
intensities. -/
theorem spot_temperature_pos {ip : ℝ} (h : 0 < ip) :
    0 < calculate_spot_temperature ip := by
  rw [calculate_spot_temperature, if_neg (not_le.mpr h), SUN_TEMPERATURE]
  exact mul_pos (by norm_num)
    (Real.rpow_pos_of_pos (div_pos h (by norm_num : (0:ℝ) < 100)) _)

/-- C2 counterexample: at the degenerate input `temperatureK = 0` the Wien
computation raises `ZeroDivisionError`; it does not return 0 or a defined
sentinel, because the source has no guard. -/
theorem wien_zero_division_error :
    wienPeakWavelength 0 = Except.error "ZeroDivisionError" := by
  rw [wienPeakWavelength, if_pos rfl]

/-- C2 (amended): the Wien computation is not guarded at `temperatureK = 0`
and would raise `ZeroDivisionError` there, but every temperature the program
passes to it — `SUN_TEMPERATURE` and `calculate_spot_temperature ip` for a
slider intensity `ip ≥ 10` — is strictly positive, so the computation
succeeds and no error reaches the caller. -/
theorem wien_defined_on_program_temperatures (ip : ℝ) (h : 10 ≤ ip) :
    0 < calculate_spot_temperature ip ∧
    wienPeakWavelength (calculate_spot_temperature ip) =
      Except.ok (WIEN_CONSTANT / calculate_spot_temperature ip * 1e9) ∧
    wienPeakWavelength SUN_TEMPERATURE =
      Except.ok (WIEN_CONSTANT / SUN_TEMPERATURE * 1e9) := by
  have hT : 0 < calculate_spot_temperature ip := spot_temperature_pos (by linarith)
  refine ⟨hT, ?_, ?_⟩
  · rw [wienPeakWavelength, if_neg hT.ne']
  · rw [wienPeakWavelength, if_neg (by rw [SUN_TEMPERATURE]; norm_num)]

/-- Witness for the amended C2 at the concrete slider intensity 35. -/
theorem wien_defined_on_program_temperatures_witness :
    0 < calculate_spot_temperature 35 ∧
    wienPeakWavelength (calculate_spot_temperature 35) =
      Except.ok (WIEN_CONSTANT / calculate_spot_temperature 35 * 1e9) ∧
    wienPeakWavelength SUN_TEMPERATURE =
      Except.ok (WIEN_CONSTANT / SUN_TEMPERATURE * 1e9) :=
  wien_defined_on_program_temperatures 35 (by norm_num)

/-! ### C5 -/

/-- Helper: numerical bracketing `4444 < calculate_spot_temperature 35 < 4445`
(the exact value is `5778 · 0.35^0.25 ≈ 4444.3`). -/
theorem spot_temperature_35_bounds :
    4444 < calculate_spot_temperature 35 ∧ calculate_spot_temperature 35 < 4445 := by
  rw [calculate_spot_temperature, if_neg (by norm_num : ¬ (35:ℝ) ≤ 0),
    SUN_TEMPERATURE]
  set x : ℝ := ((35:ℝ) / 100) ^ (0.25 : ℝ) with hx
  have hxpos : 0 < x := Real.rpow_pos_of_pos (by norm_num) _
  have hx4 : x ^ (4:ℕ) = 35 / 100 := by
    rw [hx, ← Real.rpow_natCast (((35:ℝ)/100) ^ (0.25:ℝ)) 4,
      ← Real.rpow_mul (by norm_num : (0:ℝ) ≤ 35/100)]
    have h1 : (0.25:ℝ) * ((4:ℕ):ℝ) = 1 := by norm_num
    rw [h1, Real.rpow_one]
  constructor
  · have hlt : ((4444:ℝ)/5778) ^ (4:ℕ) < x ^ (4:ℕ) := by rw [hx4]; norm_num
    have h2 := lt_of_pow_lt_pow_left₀ 4 hxpos.le hlt
    linarith
  · have hlt : x ^ (4:ℕ) < ((4445:ℝ)/5778) ^ (4:ℕ) := by rw [hx4]; norm_num
    have h2 := lt_of_pow_lt_pow_left₀ 4 (by norm_num : (0:ℝ) ≤ 4445/5778) hlt
    linarith

/-- C5 counterexample: `calculate_spot_temperature 35` is not within ±1 K of
4304 K (it is `5778 · 0.35^0.25 ≈ 4444.3 K`, about 140 K higher). -/
theorem round_trip_not_4304 : 1 < |calculate_spot_temperature 35 - 4304| := by
  have h := spot_temperature_35_bounds.1
  have h1 : 1 < calculate_spot_temperature 35 - 4304 := by linarith
  exact lt_of_lt_of_le h1 (le_abs_self _)

/-- C5 (amended): `calculate_spot_temperature 35 = 5778 · 0.35^0.25`, which
lies in (4444, 4445) K — approximately 4444 K, not 4304 K — and the Wien peak
wavelength at that temperature lies in (651, 653) nm — approximately 652 nm,
not 673 nm. -/
theorem round_trip_intensity_35 :
    calculate_spot_temperature 35 = 5778 * ((35:ℝ) / 100) ^ (0.25:ℝ) ∧
    4444 < calculate_spot_temperature 35 ∧
    calculate_spot_temperature 35 < 4445 ∧
    wienPeakWavelength (calculate_spot_temperature 35) =
      Except.ok (WIEN_CONSTANT / calculate_spot_temperature 35 * 1e9) ∧
    651 < WIEN_CONSTANT / calculate_spot_temperature 35 * 1e9 ∧
    WIEN_CONSTANT / calculate_spot_temperature 35 * 1e9 < 653 := by
  obtain ⟨hl, hu⟩ := spot_temperature_35_bounds
  have hT : 0 < calculate_spot_temperature 35 := by linarith
  have hWC : WIEN_CONSTANT * 1e9 = 2898000 := by rw [WIEN_CONSTANT]; norm_num
  refine ⟨?_, hl, hu, ?_, ?_, ?_⟩
  · rw [calculate_spot_temperature, if_neg (by norm_num : ¬ (35:ℝ) ≤ 0),
      SUN_TEMPERATURE]
  · rw [wienPeakWavelength, if_neg hT.ne']
  · rw [div_mul_eq_mul_div, hWC, lt_div_iff₀ hT]
    linarith
  · rw [div_mul_eq_mul_div, hWC, div_lt_iff₀ hT]
    linarith

/-! ### C6 -/

/-- C6: in the vectorised evaluation of `planck_law` over an array of
wavelengths at a single temperature, every position whose exponent exceeds
700 or whose wavelength is below 1e-10 m holds exactly 0.  (In the
real-number semantics no NaN can arise, so the final
`result[np.isnan(result)] = 0` is the identity.) -/
theorem planck_vec_masked_zero (ws : List ℝ) (T : ℝ) (n : ℕ) (hn : n < ws.length)
    (hmask : 700 < planck_exponent (ws.get ⟨n, hn⟩) T ∨ ws.get ⟨n, hn⟩ < 1e-10) :
    (planck_law_vec ws T).get ⟨n, by simpa [planck_law_vec] using hn⟩ = 0 := by
  simp only [planck_law_vec, List.get_eq_getElem, List.getElem_map]
  simp only [List.get_eq_getElem] at hmask
  rw [planck_law, if_pos hmask]

/-- Witness for C6 at the concrete array `[1e-11]` (masked wavelength) and
temperature 5778. -/
theorem planck_vec_masked_zero_witness :
    (planck_law_vec [1e-11] 5778).get ⟨0, by simp [planck_law_vec]⟩ = 0 :=
  planck_vec_masked_zero [1e-11] 5778 0 (by simp)
    (Or.inr (by norm_num : (1e-11:ℝ) < 1e-10))

/-! ### C7 -/

/-- C7 counterexample: at wavelength 5e-7 m and temperature −5000 K the
exponent is a negative number (≈ −5.76), the position is not masked, and
`planck_law` returns a strictly negative radiance — so non-negativity fails
for "any temperature". -/
theorem planck_negative_radiance : planck_law 5e-7 (-5000) < 0 := by
  have hexp_neg : planck_exponent 5e-7 (-5000) < 0 := by
    rw [planck_exponent, planck_h, planck_c, planck_k]; norm_num
  have hmask : ¬ (700 < planck_exponent 5e-7 (-5000) ∨ (5e-7:ℝ) < 1e-10) := by
    push_neg
    exact ⟨by linarith, by norm_num⟩
  rw [planck_law, if_neg hmask]
  have hexp1 : Real.exp (planck_exponent 5e-7 (-5000)) < 1 := by
    rw [← Real.exp_zero]
    exact Real.exp_lt_exp.mpr hexp_neg
  have hden : Real.exp (planck_exponent 5e-7 (-5000)) - 1 < 0 := by linarith
  have hrec : 1 / (Real.exp (planck_exponent 5e-7 (-5000)) - 1) < 0 :=
    div_neg_of_pos_of_neg one_pos hden
  have hcoef : 0 < 2 * planck_h * planck_c ^ 2 / (5e-7:ℝ) ^ 5 := by
    rw [planck_h, planck_c]; positivity
  exact mul_neg_of_pos_of_neg hcoef hrec

/-- Helper: `planck_law` is non-negative whenever the temperature is
non-negative (at `T = 0` the Lean value is 0, matching NumPy where the
position is masked by the infinite exponent). -/
theorem planck_law_nonneg {w T : ℝ} (hT : 0 ≤ T) : 0 ≤ planck_law w T := by
  rw [planck_law]
  split_ifs with h
  · exact le_refl 0
  · push_neg at h
    obtain ⟨h700, hw⟩ := h
    have hw0 : (0:ℝ) < w := lt_of_lt_of_le (by norm_num) hw
    rcases eq_or_lt_of_le hT with hT0 | hT0
    · have hz : planck_exponent w T = 0 := by
        rw [planck_exponent, ← hT0, mul_zero, div_zero]
      rw [hz, Real.exp_zero]
      norm_num
    · have hk : (0:ℝ) < planck_k := by rw [planck_k]; norm_num
      have hepos : 0 < planck_exponent w T := by
        rw [planck_exponent]
        exact div_pos (by rw [planck_h, planck_c]; norm_num)
          (mul_pos (mul_pos hw0 hk) hT0)
      have h1 : 1 < Real.exp (planck_exponent w T) := by
        rw [← Real.exp_zero]
        exact Real.exp_lt_exp.mpr hepos
      have hcoef : 0 ≤ 2 * planck_h * planck_c ^ 2 / w ^ 5 := by
        rw [planck_h, planck_c]; positivity
      have hrec : 0 ≤ 1 / (Real.exp (planck_exponent w T) - 1) :=
        le_of_lt (div_pos one_pos (by linarith))
      exact mul_nonneg hcoef hrec

/-- C7 (amended): `planck_law` returns a non-negative radiance for every
wavelength and every non-negative temperature (the program only evaluates it
at 5778 K and at spot temperatures, which are ≥ 0), and returns exactly 0 at
every masked position (huge exponent or near-zero wavelength).  For negative
temperatures the unmasked value is negative, so the restriction to `0 ≤ T`
is necessary. -/
theorem planck_nonneg_for_nonneg_temperature (w T : ℝ) (hT : 0 ≤ T) :
    0 ≤ planck_law w T ∧
    ((700 < planck_exponent w T ∨ w < 1e-10) → planck_law w T = 0) :=
  ⟨planck_law_nonneg hT, fun h => by rw [planck_law, if_pos h]⟩

/-- Witness for the amended C7 at the concrete inputs (5e-7, 5778) and
(1e-11, 5778). -/
theorem planck_nonneg_for_nonneg_temperature_witness :
    0 ≤ planck_law 5e-7 5778 ∧ planck_law 1e-11 5778 = 0 :=
  ⟨(planck_nonneg_for_nonneg_temperature 5e-7 5778 (by norm_num)).1,
   (planck_nonneg_for_nonneg_temperature 1e-11 5778 (by norm_num)).2
     (Or.inr (by norm_num))⟩

/-! ### C10 -/

/-- C10: called with a scalar (non-array) wavelength, `planck_law` raises
`TypeError` (the masked assignment `result[mask] = 0` needs an array-valued
`result`), while every array wavelength input returns a radiance array: the
function is total exactly over array inputs. -/
theorem planck_scalar_type_error (x T : ℝ) (ws : List ℝ) :
    planck_law_np (NpValue.scalar x) T = Except.error "TypeError" ∧
    planck_law_np (NpValue.array ws) T =
      Except.ok (NpValue.array (planck_law_vec ws T)) :=
  ⟨rfl, rfl⟩

/-! ### C8 -/

/-- Helper: the fold underlying `npMax` dominates its initial value and every
list element. -/
theorem foldl_max_bounds : ∀ (l : List ℝ) (a : ℝ),
    a ≤ l.foldl max a ∧ ∀ x ∈ l, x ≤ l.foldl max a := by
  intro l
  induction l with
  | nil => exact fun a => ⟨le_refl a, by simp⟩
  | cons y ys ih =>
    intro a
    constructor
    · exact le_trans (le_max_left a y) (ih (max a y)).1
    · intro x hx
      rcases List.mem_cons.mp hx with h | h
      · subst h
        exact le_trans (le_max_right a x) (ih (max a x)).1
      · exact (ih (max a y)).2 x h

/-- Helper: the fold underlying `npMax` is bounded by every common upper
bound of its initial value and the list elements. -/
theorem foldl_max_le : ∀ (l : List ℝ) (a b : ℝ), a ≤ b → (∀ x ∈ l, x ≤ b) →
    l.foldl max a ≤ b := by
  intro l
  induction l with
  | nil => intro a b h _; simpa using h
  | cons y ys ih =>
    intro a b ha hl
    exact ih (max a y) b (max_le ha (hl y (by simp)))
      fun x hx => hl x (List.mem_cons_of_mem _ hx)

/-- Helper: the fold underlying `npMax` returns its initial value or one of
the list elements. -/
theorem foldl_max_mem : ∀ (l : List ℝ) (a : ℝ),
    l.foldl max a = a ∨ l.foldl max a ∈ l := by
  intro l
  induction l with
  | nil => intro a; left; rfl
  | cons y ys ih =>
    intro a
    rw [List.foldl_cons]
    rcases ih (max a y) with h | h
    · rcases max_cases a y with ⟨he, _⟩ | ⟨he, _⟩
      · left; rw [h, he]
      · right; rw [h, he]; simp
    · right
      exact List.mem_cons_of_mem _ h

/-- Helper: `npMax` of a nonempty list is an element and an upper bound. -/
theorem npMax_spec (s : List ℝ) (h : s ≠ []) :
    npMax s ∈ s ∧ ∀ x ∈ s, x ≤ npMax s := by
  cases s with
  | nil => exact absurd rfl h
  | cons x xs =>
    rw [npMax]
    refine ⟨?_, ?_⟩
    · rcases foldl_max_mem xs x with h | h
      · rw [h]; simp
      · exact List.mem_cons_of_mem _ h
    · intro y hy
      rcases List.mem_cons.mp hy with h | h
      · subst h
        exact (foldl_max_bounds xs y).1
      · exact (foldl_max_bounds xs x).2 y h

/-- Helper: `npMax` of a nonempty list is at most every common upper bound of
its elements. -/
theorem npMax_le (s : List ℝ) (b : ℝ) (h : s ≠ []) (hb : ∀ x ∈ s, x ≤ b) :
    npMax s ≤ b := by
  cases s with
  | nil => exact absurd rfl h
  | cons x xs =>
    rw [npMax]
    exact foldl_max_le xs x b (hb x (by simp))
      fun y hy => hb y (List.mem_cons_of_mem _ hy)

/-- C8: for a nonempty spectrum with non-negative entries (as produced by
`planck_law` at the program's temperatures), the normalisation
`spectrum / max(spectrum)` has maximum exactly 1 whenever the spectrum is not
all-zero, and when the spectrum is all-zero the safeguard divides by 1, so no
division error occurs and the array is returned unchanged. -/
theorem normalize_spectrum_max_one (s : List ℝ) (hne : s ≠ [])
    (hnn : ∀ x ∈ s, 0 ≤ x) :
    ((∃ x ∈ s, x ≠ 0) → npMax (normalize_spectrum s) = 1) ∧
    ((∀ x ∈ s, x = 0) → normalize_spectrum s = s) := by
  constructor
  · rintro ⟨x, hxs, hx0⟩
    have hxpos : 0 < x := lt_of_le_of_ne (hnn x hxs) (Ne.symm hx0)
    have hmpos : 0 < npMax s := lt_of_lt_of_le hxpos ((npMax_spec s hne).2 x hxs)
    have hform : normalize_spectrum s = s.map fun v => v / npMax s := by
      simp [normalize_spectrum, hmpos]
    rw [hform]
    have hne2 : (s.map fun v => v / npMax s) ≠ [] := by
      simpa using hne
    apply le_antisymm
    · apply npMax_le _ _ hne2
      rintro y hy
      rw [List.mem_map] at hy
      obtain ⟨v, hv, rfl⟩ := hy
      exact (div_le_one hmpos).mpr ((npMax_spec s hne).2 v hv)
    · have hmem : (1:ℝ) ∈ s.map fun v => v / npMax s := by
        rw [List.mem_map]
        exact ⟨npMax s, (npMax_spec s hne).1, div_self hmpos.ne'⟩
      exact (npMax_spec _ hne2).2 1 hmem
  · intro hz
    have hm : npMax s = 0 := hz _ (npMax_spec s hne).1
    rw [normalize_spectrum, hm]
    simp

/-- Witness for C8 at the concrete spectrum `[2, 0]`. -/
theorem normalize_spectrum_max_one_witness :
    npMax (normalize_spectrum [2, 0]) = 1 :=
  (normalize_spectrum_max_one [2, 0] (by simp)
      (by rintro x hx; simp at hx; rcases hx with rfl | rfl <;> norm_num)).1
    ⟨2, by simp, by norm_num⟩

/-! ### C3 -/

/-- Helper: the clipped disk value always lies in [0, 1]. -/
theorem clipped_disk_mem (g : Fin gridN → Fin gridN → ℝ) (i j : Fin gridN) :
    0 ≤ clipped_disk g i j ∧ clipped_disk g i j ≤ 1 := by
  rw [clipped_disk]
  exact ⟨le_min (by norm_num) (le_max_left 0 _), min_le_left 1 _⟩

/-- Helper: cells outside the unit disk are zero after the clip. -/
theorem clipped_disk_outside (g : Fin gridN → Fin gridN → ℝ) (i j : Fin gridN)
    (h : 1 < rad i j) : clipped_disk g i j = 0 := by
  rw [clipped_disk, if_pos h]
  norm_num

/-- Helper: each spot factor lies in [0, 1] on the slider domain. -/
theorem spot_multiplier_mem (ns : ℕ) (si ss : ℝ) (k : ℕ) (i j : Fin gridN)
    (h3 : 10 ≤ si) (h4 : si ≤ 80) (h5 : 3 ≤ ss) :
    0 ≤ spot_multiplier ns si ss k i j ∧ spot_multiplier ns si ss k i j ≤ 1 := by
  rw [spot_multiplier]
  split_ifs with h1 h2
  · constructor <;> linarith
  · rw [np_interp]
    split_ifs with ha hb
    · constructor <;> linarith
    · constructor <;> norm_num
    · push_neg at ha hb
      have hden : (0:ℝ) < ss / 120 * 1.8 - ss / 120 := by linarith
      have hc0 : (0:ℝ) ≤ 0.8 - si / 100 := by linarith
      have hnum0 : 0 ≤ (spot_dist ns k i j - ss / 120) * (0.8 - si / 100) :=
        mul_nonneg (by linarith) hc0
      have hfrac_le : (spot_dist ns k i j - ss / 120) * (0.8 - si / 100) /
          (ss / 120 * 1.8 - ss / 120) ≤ 0.8 - si / 100 := by
        rw [div_le_iff₀ hden]
        have hd : spot_dist ns k i j - ss / 120 ≤ ss / 120 * 1.8 - ss / 120 := by
          linarith
        nlinarith [mul_le_mul_of_nonneg_right hd hc0]
      have hfrac0 : 0 ≤ (spot_dist ns k i j - ss / 120) * (0.8 - si / 100) /
          (ss / 120 * 1.8 - ss / 120) := div_nonneg hnum0 (le_of_lt hden)
      constructor <;> linarith
  · constructor <;> norm_num

/-- Helper: the spot loop keeps every cell in [0, 1] on the slider domain. -/
theorem spot_loop_mem (ns : ℕ) (si ss : ℝ) (disk : Fin gridN → Fin gridN → ℝ)
    (i j : Fin gridN) (hd0 : 0 ≤ disk i j) (hd1 : disk i j ≤ 1)
    (h3 : 10 ≤ si) (h4 : si ≤ 80) (h5 : 3 ≤ ss) :
    ∀ n, 0 ≤ spot_loop ns si ss disk n i j ∧ spot_loop ns si ss disk n i j ≤ 1 := by
  intro n
  induction n with
  | zero => simpa [spot_loop] using ⟨hd0, hd1⟩
  | succ m ih =>
    obtain ⟨hm0, hm1⟩ := spot_multiplier_mem ns si ss m i j h3 h4 h5
    rw [spot_loop]
    exact ⟨mul_nonneg ih.1 hm0, mul_le_one₀ ih.2 hm0 hm1⟩

/-- Helper: a cell that is zero before the loop stays zero. -/
theorem spot_loop_zero (ns : ℕ) (si ss : ℝ) (disk : Fin gridN → Fin gridN → ℝ)
    (i j : Fin gridN) (hd : disk i j = 0) :
    ∀ n, spot_loop ns si ss disk n i j = 0 := by
  intro n
  induction n with
  | zero => simpa [spot_loop] using hd
  | succ m ih => simp [spot_loop, ih]

/-- C3: on the whole declared domain (spotCount ∈ [1,5],
intensityPercent ∈ [10,80], sizePercent ∈ [3,20], all boundaries included)
and for every granulation sample, `create_solar_image` is total (it never
raises), the grid is 400×400, every cell value lies in [0,1], and every cell
at radius > 1 from the centre is 0. -/
theorem solar_image_range_invariant (ns : ℕ) (si ss : ℝ)
    (g : Fin gridN → Fin gridN → ℝ) (i j : Fin gridN)
    (h1 : 1 ≤ ns) (h2 : ns ≤ 5) (h3 : 10 ≤ si) (h4 : si ≤ 80)
    (h5 : 3 ≤ ss) (h6 : ss ≤ 20) :
    gridN = 400 ∧
    (0 ≤ create_solar_image ns si ss g i j ∧
      create_solar_image ns si ss g i j ≤ 1) ∧
    (1 < rad i j → create_solar_image ns si ss g i j = 0) := by
  refine ⟨rfl, ?_, fun hr => ?_⟩
  · obtain ⟨hc0, hc1⟩ := clipped_disk_mem g i j
    rw [create_solar_image]
    exact spot_loop_mem ns si ss _ i j hc0 hc1 h3 h4 h5 ns
  · rw [create_solar_image]
    exact spot_loop_zero ns si ss _ i j (clipped_disk_outside g i j hr) ns

/-- Grid index 0 (the sample at coordinate −1). -/
def idx0 : Fin gridN := ⟨0, by norm_num [gridN]⟩

/-- Grid index 200 (the sample at coordinate 1/399). -/
def idx200 : Fin gridN := ⟨200, by norm_num [gridN]⟩

/-- Grid index 279 (the sample at coordinate 159/399, next to the spot centre
abscissa 0.4). -/
def idx279 : Fin gridN := ⟨279, by norm_num [gridN]⟩

/-- Witness for C3 at the concrete input (1 spot, intensity 35, size 8,
zero granulation) and cell (0, 0). -/
theorem solar_image_range_invariant_witness :
    gridN = 400 ∧
    (0 ≤ create_solar_image 1 35 8 (fun _ _ => 0) idx0 idx0 ∧
      create_solar_image 1 35 8 (fun _ _ => 0) idx0 idx0 ≤ 1) ∧
    (1 < rad idx0 idx0 → create_solar_image 1 35 8 (fun _ _ => 0) idx0 idx0 = 0) :=
  solar_image_range_invariant 1 35 8 (fun _ _ => 0) idx0 idx0 (le_refl 1)
    (by norm_num) (by norm_num) (by norm_num) (by norm_num) (by norm_num)

/-! ### C4 -/

/-- Helper: the single spot (spot index 0 of one spot) sits at (2/5, 0). -/
theorem spot_pos_one_zero : spot_pos 1 0 = (2/5, 0) := by
  rw [spot_pos]
  norm_num [Real.cos_zero, Real.sin_zero]

/-- Helper: with a single spot the image is the clipped disk times the
spot-0 factor. -/
theorem create_one_spot (si ss : ℝ) (g : Fin gridN → Fin gridN → ℝ)
    (i j : Fin gridN) :
    create_solar_image 1 si ss g i j =
      clipped_disk g i j * spot_multiplier 1 si ss 0 i j := by
  rw [create_solar_image]
  simp [spot_loop]

/-- Helper: the sample coordinate at index 200 is 1/399. -/
theorem coord_200 : coord idx200 = 1 / 399 := by
  rw [coord, idx200]
  norm_num

/-- Helper: radius bounds for the near-centre cell (200, 200). -/
theorem rad_center_bounds :
    7/2000 ≤ rad idx200 idx200 ∧ rad idx200 idx200 ≤ 1/250 ∧
    rad idx200 idx200 ^ 2 = 2/159201 := by
  have h : rad idx200 idx200 = Real.sqrt (2/159201) := by
    rw [rad, coord_200]
    norm_num
  refine ⟨?_, ?_, ?_⟩
  · rw [h, Real.le_sqrt (by norm_num) (by norm_num)]
    norm_num
  · rw [h]
    calc Real.sqrt (2/159201) ≤ Real.sqrt ((1/250)^2) :=
          Real.sqrt_le_sqrt (by norm_num)
      _ = 1/250 := Real.sqrt_sq (by norm_num)
  · rw [h, Real.sq_sqrt (by norm_num)]

/-- Helper: the distance from cell (200, 200) to the spot centre is at least
0.12, i.e. the cell is outside umbra and penumbra. -/
theorem spot_dist_center : 3/25 ≤ spot_dist 1 0 idx200 idx200 := by
  rw [spot_dist, spot_pos_one_zero, coord_200]
  rw [Real.le_sqrt (by norm_num) (by positivity)]
  norm_num

/-- Helper: the spot-0 factor at cell (200, 200) is 1. -/
theorem spot_multiplier_center : spot_multiplier 1 35 8 0 idx200 idx200 = 1 := by
  have hd := spot_dist_center
  rw [spot_multiplier, if_neg (not_lt.mpr (by linarith)),
    if_neg (not_lt.mpr (by linarith))]

/-- Helper: with zero granulation the near-centre cell clips to exactly 1
(the texture term dominates the tiny limb darkening there). -/
theorem clipped_center_zero_noise :
    clipped_disk (fun _ _ => 0) idx200 idx200 = 1 := by
  obtain ⟨hge, hle, hsq⟩ := rad_center_bounds
  set r := rad idx200 idx200 with hr
  have hnr : ¬ (1 < r) := by push_neg; linarith
  rw [clipped_disk, if_neg hnr]
  have hr0 : (0:ℝ) < r := by linarith
  have hsin := Real.sin_gt_sub_cube (by linarith : (0:ℝ) < 10 * r)
    (by linarith : 10 * r ≤ 1)
  have hr3 : r ^ 3 = 2/159201 * r := by
    have h3 : r ^ 3 = r ^ 2 * r := by ring
    rw [h3, hsq]
  have hpre : (1:ℝ) ≤ 1.0 - 0.6 * r ^ 2 + 0.1 * Real.sin (10 * r) + 0 := by
    nlinarith [hsin, hsq, hr3, hge, hle]
  rw [max_eq_right
    (by linarith : (0:ℝ) ≤ 1.0 - 0.6 * r ^ 2 + 0.1 * Real.sin (10 * r) + 0),
    min_eq_left hpre]

/-- Helper: with constant granulation −2 the near-centre cell clips to 0. -/
theorem clipped_center_neg_noise :
    clipped_disk (fun _ _ => -2) idx200 idx200 = 0 := by
  obtain ⟨hge, hle, hsq⟩ := rad_center_bounds
  set r := rad idx200 idx200 with hr
  have hnr : ¬ (1 < r) := by push_neg; linarith
  rw [clipped_disk, if_neg hnr]
  have hsin : Real.sin (10 * r) ≤ 1 := Real.sin_le_one _
  have hpre : 1.0 - 0.6 * r ^ 2 + 0.1 * Real.sin (10 * r) + (-2) ≤ 0 := by
    nlinarith [sq_nonneg r]
  rw [max_eq_left hpre, min_eq_right (by norm_num : (0:ℝ) ≤ 1)]

/-- C4 counterexample: two calls of `create_solar_image` with identical
slider arguments (1 spot, intensity 35, size 8) but different granulation
samples — the source draws a fresh `np.random.randn` sample on every call —
produce different grids: cell (200, 200) is 1 under zero noise and 0 under
constant noise −2. -/
theorem solar_image_noise_dependent :
    ¬ ∀ g1 g2 : Fin gridN → Fin gridN → ℝ, ∀ i j : Fin gridN,
        create_solar_image 1 35 8 g1 i j = create_solar_image 1 35 8 g2 i j := by
  intro hall
  have h := hall (fun _ _ => 0) (fun _ _ => -2) idx200 idx200
  rw [create_one_spot, create_one_spot, clipped_center_zero_noise,
    clipped_center_neg_noise, spot_multiplier_center] at h
  norm_num at h

/-- Helper: the spot loop depends on the incoming disk only through its value
at the same cell. -/
theorem spot_loop_congr (ns : ℕ) (si ss : ℝ)
    (d1 d2 : Fin gridN → Fin gridN → ℝ) (i j : Fin gridN)
    (h : d1 i j = d2 i j) :
    ∀ n, spot_loop ns si ss d1 n i j = spot_loop ns si ss d2 n i j := by
  intro n
  induction n with
  | zero => simpa [spot_loop] using h
  | succ m ih => simp [spot_loop, ih]

/-- C4 (amended): `create_solar_image` is a pure, deterministic function of
its explicit parameters together with the granulation sample: two calls with
the same `(num_spots, spot_intensity, spot_size)` whose granulation samples
agree on the disk (cells of radius ≤ 1) produce identical grids.  Because the
source draws a fresh random sample on every call, determinism in the three
slider arguments alone fails (see the counterexample); no other shared
mutable state influences the result. -/
theorem solar_image_deterministic_given_noise (ns : ℕ) (si ss : ℝ)
    (g1 g2 : Fin gridN → Fin gridN → ℝ)
    (h : ∀ i j : Fin gridN, rad i j ≤ 1 → g1 i j = g2 i j) (i j : Fin gridN) :
    create_solar_image ns si ss g1 i j = create_solar_image ns si ss g2 i j := by
  have hc : clipped_disk g1 i j = clipped_disk g2 i j := by
    simp only [clipped_disk]
    rcases lt_or_le 1 (rad i j) with hr | hr
    · rw [if_pos hr, if_pos hr]
    · rw [if_neg (not_lt.mpr hr), if_neg (not_lt.mpr hr), h i j hr]
  rw [create_solar_image, create_solar_image]
  exact spot_loop_congr ns si ss _ _ i j hc ns

/-- Witness for the amended C4 at concrete equal noise samples. -/
theorem solar_image_deterministic_given_noise_witness :
    create_solar_image 2 35 8 (fun _ _ => 0) idx0 idx0 =
      create_solar_image 2 35 8 (fun _ _ => 0) idx0 idx0 :=
  solar_image_deterministic_given_noise 2 35 8 (fun _ _ => 0) (fun _ _ => 0)
    (fun _ _ _ => rfl) idx0 idx0

/-! ### C9 -/

/-- Helper: reverse-triangle bounds for the Euclidean distance of a point
(X, Y) to the origin against its distance to the spot centre (2/5, 0). -/
theorem sqrt_triangle (X Y : ℝ) :
    2/5 - Real.sqrt ((X - 2/5)^2 + Y^2) ≤ Real.sqrt (X^2 + Y^2) ∧
    Real.sqrt (X^2 + Y^2) ≤ 2/5 + Real.sqrt ((X - 2/5)^2 + Y^2) := by
  have habs1 : |X - 2/5| ≤ Real.sqrt ((X - 2/5)^2 + Y^2) := by
    rw [← Real.sqrt_sq_eq_abs]
    exact Real.sqrt_le_sqrt (le_add_of_nonneg_right (sq_nonneg Y))
  have habs2 : |X| ≤ Real.sqrt (X^2 + Y^2) := by
    rw [← Real.sqrt_sq_eq_abs]
    exact Real.sqrt_le_sqrt (le_add_of_nonneg_right (sq_nonneg Y))
  have hd2 : Real.sqrt ((X - 2/5)^2 + Y^2) ^ 2 = (X - 2/5)^2 + Y^2 :=
    Real.sq_sqrt (by positivity)
  have hd0 : 0 ≤ Real.sqrt ((X - 2/5)^2 + Y^2) := Real.sqrt_nonneg _
  obtain ⟨ha1, ha2⟩ := abs_le.mp habs1
  have hX := le_trans (le_abs_self X) habs2
  constructor
  · linarith
  · have key : X^2 + Y^2 ≤ (2/5 + Real.sqrt ((X - 2/5)^2 + Y^2))^2 := by
      have expand : (2/5 + Real.sqrt ((X - 2/5)^2 + Y^2))^2 =
          4/25 + 4/5 * Real.sqrt ((X - 2/5)^2 + Y^2) +
            Real.sqrt ((X - 2/5)^2 + Y^2)^2 := by ring
      rw [expand, hd2]
      nlinarith [ha2]
    calc Real.sqrt (X^2 + Y^2)
        ≤ Real.sqrt ((2/5 + Real.sqrt ((X - 2/5)^2 + Y^2))^2) :=
          Real.sqrt_le_sqrt key
      _ = 2/5 + Real.sqrt ((X - 2/5)^2 + Y^2) := Real.sqrt_sq (by linarith)

/-- Helper: the cell radius differs from 2/5 by at most the distance of the
cell to the single-spot centre. -/
theorem rad_near_spot (i j : Fin gridN) :
    2/5 - spot_dist 1 0 i j ≤ rad i j ∧ rad i j ≤ 2/5 + spot_dist 1 0 i j := by
  have hsd : spot_dist 1 0 i j = Real.sqrt ((coord j - 2/5)^2 + coord i^2) := by
    rw [spot_dist, spot_pos_one_zero]
    norm_num
  rw [rad, hsd]
  exact sqrt_triangle (coord j) (coord i)

/-- Helper: pre-clip disk value bounds on the umbra annulus 1/3 < r < 7/15:
there the texture term `0.1 sin(10 r)` is negative (10 r lies in (π, 2π)), so
the value lies strictly between 0.769 and 14/15. -/
theorem base_bounds_umbra (r : ℝ) (h1 : 1/3 < r) (h2 : r < 7/15) :
    769/1000 < 1.0 - 0.6 * r^2 + 0.1 * Real.sin (10 * r) ∧
    1.0 - 0.6 * r^2 + 0.1 * Real.sin (10 * r) < 14/15 := by
  have hπ1 : (3.1415:ℝ) < Real.pi := Real.pi_gt_d4
  have hπ2 : Real.pi < 3.1416 := Real.pi_lt_d4
  have hsin_neg : Real.sin (10 * r) < 0 := by
    have hpos : 0 < Real.sin (10 * r - Real.pi) :=
      Real.sin_pos_of_pos_of_lt_pi (by linarith) (by linarith)
    have hid : Real.sin (10 * r - Real.pi) = - Real.sin (10 * r) :=
      Real.sin_sub_pi (10 * r)
    linarith
  have hsin_ge : (-1:ℝ) ≤ Real.sin (10 * r) := Real.neg_one_le_sin _
  have hsq_hi : r^2 < 49/225 := by
    nlinarith [mul_pos (by linarith : (0:ℝ) < 7/15 - r)
      (by linarith : (0:ℝ) < 7/15 + r)]
  have hsq_lo : 1/9 < r^2 := by
    nlinarith [mul_pos (by linarith : (0:ℝ) < r - 1/3)
      (by linarith : (0:ℝ) < r + 1/3)]
  constructor
  · nlinarith
  · nlinarith

/-- Helper: pre-clip disk value lower bound on the whole unit disk: the
limb-darkened textured value stays at or above 0.33 for every 0 ≤ r ≤ 1
(near the limb, 10 r lies just above 3π, so the sine dips only to 3π−10). -/
theorem base_lower_bound_disk (r : ℝ) (h0 : 0 ≤ r) (h1 : r ≤ 1) :
    33/100 ≤ 1.0 - 0.6 * r^2 + 0.1 * Real.sin (10 * r) := by
  have hπ1 : (3.1415:ℝ) < Real.pi := Real.pi_gt_d4
  have hπ2 : Real.pi < 3.1416 := Real.pi_lt_d4
  have hsin_ge : (-1:ℝ) ≤ Real.sin (10 * r) := Real.neg_one_le_sin _
  rcases le_or_lt (r^2) (19/20) with hc | hc
  · nlinarith
  · have hrgt : 974/1000 < r := by
      nlinarith [sq_nonneg (r - 974/1000), sq_nonneg (r + 974/1000)]
    have ht0 : 0 < 10 * r - 3 * Real.pi := by linarith
    have harg : 10 * r = (10 * r - 3 * Real.pi) + Real.pi + 2 * Real.pi := by
      ring
    have hid : Real.sin (10 * r) = - Real.sin (10 * r - 3 * Real.pi) := by
      conv_lhs => rw [harg]
      rw [Real.sin_add_two_pi, Real.sin_add_pi]
    have hst : Real.sin (10 * r - 3 * Real.pi) < 10 * r - 3 * Real.pi :=
      Real.sin_lt ht0
    have hr2le : r^2 ≤ 1 := by nlinarith
    nlinarith [hid, hst, hπ1]

/-- Helper: an umbra cell of the single-spot configuration with zero
granulation has final value strictly between 1/4 and 49/150. -/
theorem umbra_create_bounds (ui uj : Fin gridN)
    (hu : spot_dist 1 0 ui uj < 8 / 120) :
    1/4 < create_solar_image 1 35 8 (fun _ _ => 0) ui uj ∧
    create_solar_image 1 35 8 (fun _ _ => 0) ui uj < 49/150 := by
  obtain ⟨hlo, hhi⟩ := rad_near_spot ui uj
  have hd0 : 0 ≤ spot_dist 1 0 ui uj := by
    rw [spot_dist]; exact Real.sqrt_nonneg _
  have hr1 : 1/3 < rad ui uj := by linarith
  have hr2 : rad ui uj < 7/15 := by linarith
  obtain ⟨hb1, hb2⟩ := base_bounds_umbra (rad ui uj) hr1 hr2
  have hnr : ¬ (1 < rad ui uj) := by push_neg; linarith
  have hclip : clipped_disk (fun _ _ => 0) ui uj =
      1.0 - 0.6 * rad ui uj ^ 2 + 0.1 * Real.sin (10 * rad ui uj) := by
    simp only [clipped_disk, if_neg hnr, add_zero]
    rw [max_eq_right (by linarith), min_eq_right (by linarith)]
  have hmul : spot_multiplier 1 35 8 0 ui uj = 35/100 := by
    rw [spot_multiplier, if_pos hu]
  rw [create_one_spot, hclip, hmul]
  constructor
  · nlinarith
  · nlinarith

/-- Helper: every on-disk cell outside umbra and penumbra keeps at least
intensity 0.33 under zero granulation. -/
theorem photosphere_create_lower_bound (p q : Fin gridN)
    (hp1 : rad p q ≤ 1) (hp2 : 8 / 120 * 1.8 ≤ spot_dist 1 0 p q) :
    33/100 ≤ create_solar_image 1 35 8 (fun _ _ => 0) p q := by
  have hm : spot_multiplier 1 35 8 0 p q = 1 := by
    rw [spot_multiplier, if_neg (not_lt.mpr (by linarith)),
      if_neg (not_lt.mpr (by linarith))]
  have hr0 : 0 ≤ rad p q := by rw [rad]; exact Real.sqrt_nonneg _
  have hbase := base_lower_bound_disk (rad p q) hr0 hp1
  rw [create_one_spot, hm, mul_one]
  simp only [clipped_disk, if_neg (not_lt.mpr hp1), add_zero]
  exact le_min (by norm_num) (le_trans hbase (le_max_right 0 _))

/-- Helper: the corner cell (0, 0) lies outside the unit disk and its final
value is 0. -/
theorem corner_value_zero :
    create_solar_image 1 35 8 (fun _ _ => 0) idx0 idx0 = 0 := by
  have hc : coord idx0 = -1 := by rw [coord, idx0]; norm_num
  have hrad : 1 < rad idx0 idx0 := by
    rw [rad, hc]
    have h1 : Real.sqrt 1 < Real.sqrt (((-1:ℝ))^2 + ((-1:ℝ))^2) :=
      Real.sqrt_lt_sqrt (by norm_num) (by norm_num)
    rwa [Real.sqrt_one] at h1
  rw [create_solar_image]
  exact spot_loop_zero 1 35 8 _ idx0 idx0 (clipped_disk_outside _ idx0 idx0 hrad) 1

/-- C9 counterexample: for the concrete one-spot disk (intensity 35, size 8,
zero granulation) no umbra cell attains the grid minimum: the corner cell
(0, 0) is background with value 0, while every umbra cell has value above
1/4, so the minimum occurs in the background, not inside the umbra. -/
theorem single_spot_min_not_in_umbra :
    ¬ ∃ ui uj : Fin gridN,
        spot_dist 1 0 ui uj < 8 / 120 ∧
        ∀ i j : Fin gridN,
          create_solar_image 1 35 8 (fun _ _ => 0) ui uj ≤
            create_solar_image 1 35 8 (fun _ _ => 0) i j := by
  rintro ⟨ui, uj, hu, hmin⟩
  have h1 := (umbra_create_bounds ui uj hu).1
  have h2 := hmin idx0 idx0
  rw [corner_value_zero] at h2
  linarith

/-- C9 (amended): for the one-spot disk (intensity 35, size 8) with the
granulation sample fixed at zero, every umbra cell is strictly darker than
every on-disk photosphere cell (radius ≤ 1, outside the penumbra), but the
grid minimum 0 is attained in the background outside the disk (corner cell),
not inside the umbra. -/
theorem single_spot_umbra_darker (ui uj p q : Fin gridN)
    (hu : spot_dist 1 0 ui uj < 8 / 120)
    (hp1 : rad p q ≤ 1) (hp2 : 8 / 120 * 1.8 ≤ spot_dist 1 0 p q) :
    create_solar_image 1 35 8 (fun _ _ => 0) ui uj <
      create_solar_image 1 35 8 (fun _ _ => 0) p q ∧
    create_solar_image 1 35 8 (fun _ _ => 0) idx0 idx0 = 0 := by
  refine ⟨?_, corner_value_zero⟩
  have h1 := (umbra_create_bounds ui uj hu).2
  have h2 := photosphere_create_lower_bound p q hp1 hp2
  linarith

/-- Helper: the sample coordinate at index 279 is 53/133 ≈ 0.3985. -/
theorem coord_279 : coord idx279 = 53/133 := by
  rw [coord, idx279]
  norm_num

/-- Helper: the concrete cell (200, 279) lies inside the umbra. -/
theorem umbra_cell_witness : spot_dist 1 0 idx200 idx279 < 8 / 120 := by
  have hsd : spot_dist 1 0 idx200 idx279 =
      Real.sqrt ((53/133 - 2/5)^2 + (1/399)^2) := by
    rw [spot_dist, spot_pos_one_zero, coord_279, coord_200]
    norm_num
  rw [hsd, show (8:ℝ)/120 = 1/15 by norm_num, Real.sqrt_lt' (by norm_num)]
  norm_num

/-- Witness for the amended C9 at the concrete umbra cell (200, 279) and
photosphere cell (200, 200). -/
theorem single_spot_umbra_darker_witness :
    create_solar_image 1 35 8 (fun _ _ => 0) idx200 idx279 <
      create_solar_image 1 35 8 (fun _ _ => 0) idx200 idx200 ∧
    create_solar_image 1 35 8 (fun _ _ => 0) idx0 idx0 = 0 :=
  single_spot_umbra_darker idx200 idx279 idx200 idx200 umbra_cell_witness
    (le_trans rad_center_bounds.2.1 (by norm_num))
    (by linarith [spot_dist_center])

end

end SolarSpotsLab
